import Mathlib

/-!
Verification development for the OCR ledger-parsing core of
`src/ocr_parser/parser.py` (Bytsea_BankParser).

The Python module is shallowly embedded: each function of the source is
translated into a total Lean function over `String` / `List` data.

Modelling conventions:
* Python `str.strip` / `str.split` / `str.lower` are modelled on `List Char`
  (`pyStrip`, `pySplitLines`, `pyLower`); character classes (`\d`, `\w`, `\s`,
  `str.isupper`) are modelled over their ASCII meaning, which covers every
  character class decision the source makes on its documented inputs.
* The regular expressions of the source (`money_pattern`, `date_pattern`,
  `period_pattern`, `page_number_pattern`) are compiled by hand into
  executable matching functions that reproduce Python `re` backtracking
  semantics (leftmost match, ordered alternation, greedy/lazy quantifiers,
  word boundaries).  `money_pattern` is anchored (`^...$`) and the source only
  applies it to newline-free tokens, so it is modelled as a full-string match.
* A pandas `DataFrame` is modelled as its list of column names plus a list of
  typed rows; numeric cells are rationals (`ℚ`).  An access to an absent
  column raises `KeyError` in pandas and is modelled as `Except.error`.
-/

/-- ASCII whitespace test used for Python `str.strip`, `\s` and `str.split`. -/
def pyWs (c : Char) : Bool := c.isWhitespace

/-- Python `str.strip`: drop leading and trailing whitespace. -/
def pyStrip (s : String) : String :=
  ((((s.data.dropWhile pyWs).reverse).dropWhile pyWs).reverse).asString

/-- Split a character list at every occurrence of `sep` (Python `str.split(sep)`). -/
def splitCharAux (sep : Char) : List Char → List Char → List String
  | [], acc => [acc.reverse.asString]
  | c :: cs, acc =>
    if c = sep then acc.reverse.asString :: splitCharAux sep cs []
    else splitCharAux sep cs (c :: acc)

/-- Python `ocr_text.strip().split(chr(10))`: the line list every function of
the source computes first. -/
def pySplitLines (s : String) : List String :=
  splitCharAux '\n' (pyStrip s).data []

/-- Python `str.lower` (ASCII). -/
def pyLower (s : String) : String := (s.data.map Char.toLower).asString

/-- Python `str.isupper`: at least one cased character and no lowercase one. -/
def pyIsUpper (s : String) : Bool :=
  s.data.any Char.isAlpha && !(s.data.any Char.isLower)

/-- First index at which `pat` occurs as a sublist (Python `str.index`). -/
def substrIdxAux (pat : List Char) : List Char → Nat → Option Nat
  | [], i => if pat.isEmpty then some i else none
  | c :: cs, i =>
    if pat.isPrefixOf (c :: cs) then some i else substrIdxAux pat cs (i + 1)

/-- Option-valued Python `str.index` for substrings. -/
def substrIdx (s pat : String) : Option Nat := substrIdxAux pat.data s.data 0

/-- Python `pat in s` substring test. -/
def containsSubstr (s pat : String) : Bool := (substrIdx s pat).isSome

/-- Join a list of strings with a separator (Python `sep.join`). -/
def strJoin (sep : String) : List String → String
  | [] => ""
  | [s] => s
  | s :: rest => s ++ sep ++ strJoin sep rest

/-- Python slice `l[a:b]` for `0 ≤ a` and `0 ≤ b`. -/
def pySlice (l : List String) (a b : Nat) : List String := (l.take b).drop a

/-- State machine for `re.split` on two-or-more whitespace characters
(`parts = re.split(r'\s\x7b2,\x7d', line)` at parser.py:124): `pend` holds the
whitespace run currently being read (reversed), `cur` the current part
(reversed). -/
def partsAux : List Char → List Char → List Char → List String
  | [], pend, cur =>
    if pend.length ≥ 2 then [cur.reverse.asString, ""]
    else [(pend ++ cur).reverse.asString]
  | c :: cs, pend, cur =>
    if pyWs c then partsAux cs (c :: pend) cur
    else if pend.length ≥ 2 then cur.reverse.asString :: partsAux cs [] [c]
    else partsAux cs [] (c :: pend ++ cur)

/-- Python `re.split` on runs of two or more whitespace characters. -/
def splitParts (line : String) : List String := partsAux line.data [] []

/-! ### money_pattern (parser.py:74)

`money_pattern = re.compile(r'^\$?((\d\x7b1,3\x7d(,\d\x7b3\x7d)*|\d+)(\.\d\x7b2\x7d)?|\.\d\x7b2\x7d)$')`

Anchored at both ends, so it is a full-string match.  The source applies it
via `money_pattern.match(p)` only to parts of a line already split on
newlines, so no token contains a newline and the `$`-before-final-newline
subtlety of Python cannot arise. -/

/-- Matches the fragment `\.\d\x7b2\x7d` against the whole remaining input. -/
def matchDotDD : List Char → Bool
  | ['.', a, b] => a.isDigit && b.isDigit
  | _ => false

/-- Matches `(,\d\x7b3\x7d)*(\.\d\x7b2\x7d)?` against the whole remaining input,
given that the input starts right after a maximal digit run (so a digit right
after a comma group means failure, as in the regex). -/
def commaTail : List Char → Bool
  | ',' :: a :: b :: c :: rest =>
    a.isDigit && b.isDigit && c.isDigit &&
      (rest.isEmpty || matchDotDD rest || commaTail rest)
  | _ => false

/-- Matches the parenthesised body of `money_pattern` against a whole string
(after the optional dollar sign). -/
def moneyBody (cs : List Char) : Bool :=
  matchDotDD cs ||
    (let run := cs.takeWhile Char.isDigit
     let rest := cs.dropWhile Char.isDigit
     !run.isEmpty &&
       (rest.isEmpty || matchDotDD rest || (run.length ≤ 3 && commaTail rest)))

/-- Python `money_pattern.match(s)` viewed as a Boolean (the source only ever
tests truthiness of the match object). -/
def isMoney (s : String) : Bool :=
  match s.data with
  | '$' :: rest => moneyBody rest
  | cs => moneyBody cs

/-- Python `p.replace(chr(36), EMPTY).replace(chr(44), EMPTY)`: drop every dollar
sign and comma (parser.py:144,149,150). -/
def stripMoney (s : String) : String :=
  (s.data.filter (fun c => !(c = '$' || c = ','))).asString

/-! ### date_pattern (parser.py:77-81)

```
date_pattern = re.compile(
    r'\b(\d\x7b1,2\x7d[dash-or-slash]\d\x7b1,2\x7d[dash-or-slash]\d\x7b2,4\x7d|\d\x7b4\x7d[dash-or-slash]\d\x7b1,2\x7d[dash-or-slash]\d\x7b1,2\x7d|'
    r'(?:Jan|Feb|Mar|Apr|May|Jun|Jul|Aug|Sep|Oct|Nov|Dec)[a-z]*\s\d\x7b1,2\x7d,\s\d\x7b4\x7d)\b',
    re.IGNORECASE)
```

Each bounded digit quantifier is immediately followed by a non-digit
requirement (a separator, a comma, a whitespace or the closing word boundary),
so backtracking into a maximal digit run can never succeed on a shorter take:
a match consumes exactly the maximal digit run, whose length must lie within
the quantifier bounds.  The alternation is tried in source order at each
start position, scanning positions left to right (`re.search`). -/

/-- Python `\w` (ASCII): letters, digits, underscore. -/
def isWordChar (c : Char) : Bool := c.isAlphanum || c = '_'

/-- Closing word boundary: end of input or a non-word character next. -/
def boundaryAt : List Char → Bool
  | [] => true
  | c :: _ => !isWordChar c

/-- Date separator class `[dash-or-slash]`. -/
def isSep (c : Char) : Bool := c = '-' || c = '/'

/-- Length of the maximal leading digit run. -/
def digitRun (cs : List Char) : Nat := (cs.takeWhile Char.isDigit).length

/-- First alternative `\d\x7b1,2\x7d[dash-or-slash]\d\x7b1,2\x7d[dash-or-slash]\d\x7b2,4\x7d` followed by `\b`;
returns the number of characters consumed. -/
def tryD1 (cs : List Char) : Option Nat :=
  let r1 := digitRun cs
  if 1 ≤ r1 ∧ r1 ≤ 2 then
    match cs.drop r1 with
    | s1 :: rest1 =>
      if isSep s1 then
        let r2 := digitRun rest1
        if 1 ≤ r2 ∧ r2 ≤ 2 then
          match rest1.drop r2 with
          | s2 :: rest2 =>
            if isSep s2 then
              let r3 := digitRun rest2
              if 2 ≤ r3 ∧ r3 ≤ 4 ∧ boundaryAt (rest2.drop r3) then
                some (r1 + 1 + r2 + 1 + r3)
              else none
            else none
          | [] => none
        else none
      else none
    | [] => none
  else none

/-- Second alternative `\d\x7b4\x7d[dash-or-slash]\d\x7b1,2\x7d[dash-or-slash]\d\x7b1,2\x7d` followed by `\b`. -/
def tryD2 (cs : List Char) : Option Nat :=
  if digitRun cs = 4 then
    match cs.drop 4 with
    | s1 :: rest1 =>
      if isSep s1 then
        let r2 := digitRun rest1
        if 1 ≤ r2 ∧ r2 ≤ 2 then
          match rest1.drop r2 with
          | s2 :: rest2 =>
            if isSep s2 then
              let r3 := digitRun rest2
              if 1 ≤ r3 ∧ r3 ≤ 2 ∧ boundaryAt (rest2.drop r3) then
                some (4 + 1 + r2 + 1 + r3)
              else none
            else none
          | [] => none
        else none
      else none
    | [] => none
  else none

/-- Month-name prefixes of the third alternative (compared case-insensitively). -/
def monthStrs : List String :=
  ["jan", "feb", "mar", "apr", "may", "jun", "jul", "aug", "sep", "oct",
   "nov", "dec"]

/-- Third alternative `(?:Jan|...|Dec)[a-z]*\s\d\x7b1,2\x7d,\s\d\x7b4\x7d` followed by
`\b` (with `re.IGNORECASE`, `[a-z]` also matches uppercase letters). -/
def tryD3 (cs : List Char) : Option Nat :=
  if monthStrs.contains ((cs.take 3).map Char.toLower).asString then
    let afterMon := cs.drop 3
    let lrun := (afterMon.takeWhile Char.isAlpha).length
    match afterMon.drop lrun with
    | w1 :: rest1 =>
      if pyWs w1 then
        let d := digitRun rest1
        if 1 ≤ d ∧ d ≤ 2 then
          match rest1.drop d with
          | ',' :: rest2 =>
            match rest2 with
            | w2 :: rest3 =>
              if pyWs w2 then
                if digitRun rest3 = 4 ∧ boundaryAt (rest3.drop 4) then
                  some (3 + lrun + 1 + d + 1 + 1 + 4)
                else none
              else none
            | [] => none
          | _ => none
        else none
      else none
    | [] => none
  else none

/-- Try the three alternatives of `date_pattern` in source order at one
position. -/
def dateMatchAt (cs : List Char) : Option Nat :=
  match tryD1 cs with
  | some n => some n
  | none =>
    match tryD2 cs with
    | some n => some n
    | none => tryD3 cs

/-- Scan positions left to right; a position is attempted only when the
opening `\b` holds there (the previous character, if any, is a non-word
character — every alternative starts with a word character). -/
def dateSearchAux : List Char → Bool → Option String
  | [], _ => none
  | c :: cs, prevWord =>
    if !prevWord then
      match dateMatchAt (c :: cs) with
      | some n => some (((c :: cs).take n).asString)
      | none => dateSearchAux cs (isWordChar c)
    else dateSearchAux cs (isWordChar c)

/-- Python `date_pattern.search(s)`, returning `group(0)` of the leftmost
match. -/
def dateSearch (s : String) : Option String := dateSearchAux s.data false

/-! ### period_pattern (parser.py:369-372)

```
period_pattern = re.compile(
    r"(?:Period|Dates|From|For the period|For period)\s*:?\s*([\w\s,.月日年 slash dash]+?)"
    r"\s*(?:to|-|–|through|until)\s*([\w\s,.月日年 slash dash]+)",
    re.IGNORECASE)
```

Backtracking is modelled exactly: greedy `\s*` pieces enumerate their take
from longest to shortest, `:?` tries the colon first, the lazy group grows
from one character up, alternations are tried in source order, positions are
scanned left to right.  The final greedy group takes the maximal class run
(nothing follows it in the pattern). -/

/-- Candidate take lengths for a greedy quantifier, longest first. -/
def countdown : Nat → List Nat
  | 0 => [0]
  | n + 1 => (n + 1) :: countdown n

/-- Length of the maximal leading whitespace run. -/
def wsRun (cs : List Char) : Nat := (cs.takeWhile pyWs).length

/-- Character class of the two captured period spans. -/
def classW (c : Char) : Bool :=
  isWordChar c || pyWs c || c = ',' || c = '.' || c = '月' || c = '日' ||
    c = '年' || c = '/' || c = '-'

/-- Case-insensitive literal match at the head of the input (`pat` is given in
lowercase). -/
def matchCI : List Char → List Char → Bool
  | [], _ => true
  | _ :: _, [] => false
  | p :: ps, c :: cs => (c.toLower = p) && matchCI ps cs

/-- Lead alternation of `period_pattern`, in source order (lowercased). -/
def periodLeads : List String :=
  ["period", "dates", "from", "for the period", "for period"]

/-- Separator alternation of `period_pattern`, in source order (lowercased). -/
def periodSeps : List String := ["to", "-", "–", "through", "until"]

/-- Matches `\s*` then the second captured group `([...]+)` (greedy, final):
the group is the maximal class run after the whitespace take, nonempty. -/
def periodGroup2 (r3 : List Char) : Option (List Char) :=
  (countdown (wsRun r3)).findSome? fun k =>
    let g := r3.drop k
    let m := (g.takeWhile classW).length
    if 1 ≤ m then some (g.take m) else none

/-- Matches `\s*(?:to|-|–|through|until)\s*(group2)` after the lazy group. -/
def periodTrySep (rest : List Char) : Option (List Char) :=
  (countdown (wsRun rest)).findSome? fun k =>
    let r2 := rest.drop k
    periodSeps.findSome? fun sep =>
      if matchCI sep.data r2 then periodGroup2 (r2.drop sep.data.length)
      else none

/-- Lazy first captured group: grow from one character up, the group staying
inside the class run, until the separator part of the pattern matches. -/
def periodGroup1 (g0 : List Char) : Option (List Char × List Char) :=
  let maxg := (g0.takeWhile classW).length
  (List.range maxg).findSome? fun i =>
    let len := i + 1
    match periodTrySep (g0.drop len) with
    | some g2 => some (g0.take len, g2)
    | none => none

/-- Matches `\s*:?\s*(group1)...` right after the lead word. -/
def periodAfterLead (cs : List Char) : Option (List Char × List Char) :=
  (countdown (wsRun cs)).findSome? fun k1 =>
    let cs1 := cs.drop k1
    let colonOpts :=
      match cs1 with
      | ':' :: r => [r, cs1]
      | _ => [cs1]
    colonOpts.findSome? fun cs2 =>
      (countdown (wsRun cs2)).findSome? fun k2 =>
        periodGroup1 (cs2.drop k2)

/-- Scan positions left to right, trying each lead alternative and, on a lead
hit, the whole rest of the pattern (regex backtracking across the
alternation). -/
def periodSearchAux : List Char → Option (String × String)
  | [] => none
  | c :: cs =>
    match
      periodLeads.findSome? (fun ld =>
        if matchCI ld.data (c :: cs) then
          periodAfterLead ((c :: cs).drop ld.data.length)
        else none)
    with
    | some (g1, g2) => some (g1.asString, g2.asString)
    | none => periodSearchAux cs

/-- Python `period_pattern.search(s)`, returning the two captured groups of
the leftmost match. -/
def periodSearch (s : String) : Option (String × String) := periodSearchAux s.data

/-! ### page_number_pattern (parser.py:374)

`page_number_pattern = re.compile(r"(?:Page|P\.?)\s*(\d+)(?:\s*(?:of|/)\s*(\d+))?", re.IGNORECASE)`

Every `\s*` here is followed by a non-whitespace requirement and every `\d+`
by a non-digit requirement, so greedy runs are maximal and deterministic; the
only backtracking is across the lead alternation and the optional dot, both
modelled in source order. -/

/-- Matches `\s*(\d+)(?:\s*(?:of|/)\s*(\d+))?` after the lead. -/
def pageAfterLead (cs : List Char) : Option (String × Option String) :=
  let rest := cs.drop (wsRun cs)
  let d := digitRun rest
  if 1 ≤ d then
    let g1 := (rest.take d).asString
    let rest2 := rest.drop d
    let r3 := rest2.drop (wsRun rest2)
    let sepLen : Option Nat :=
      if matchCI "of".data r3 then some 2
      else if matchCI "/".data r3 then some 1
      else none
    match sepLen with
    | some len =>
      let r4 := r3.drop len
      let r5 := r4.drop (wsRun r4)
      let d2 := digitRun r5
      if 1 ≤ d2 then some (g1, some ((r5.take d2).asString)) else some (g1, none)
    | none => some (g1, none)
  else none

/-- Try `Page`, then `P` with a dot, then bare `P`, at one position. -/
def pageMatchAt (cs : List Char) : Option (String × Option String) :=
  match (if matchCI "page".data cs then pageAfterLead (cs.drop 4) else none) with
  | some r => some r
  | none =>
    match cs with
    | c :: rest =>
      if c.toLower = 'p' then
        match rest with
        | '.' :: rest2 =>
          match pageAfterLead rest2 with
          | some r => some r
          | none => pageAfterLead rest
        | _ => pageAfterLead rest
      else none
    | [] => none

/-- Scan positions left to right for `page_number_pattern`. -/
def pageSearchAux : List Char → Option (String × Option String)
  | [] => none
  | c :: cs =>
    match pageMatchAt (c :: cs) with
    | some r => some r
    | none => pageSearchAux cs

/-- Python `page_number_pattern.search(s)`, returning `group(1)` and the
optional `group(2)` of the leftmost match. -/
def pageSearch (s : String) : Option (String × Option String) := pageSearchAux s.data

/-! ### parse_ledger_text (parser.py:30-180) -/

/-- Column list `EXPECTED_COLUMNS` (parser.py:24-27). -/
def EXPECTED_COLUMNS : List String :=
  ["Trans #", "Type", "Date", "Num", "Name", "Memo", "Account", "Debit",
   "Credit"]

/-- One transaction dictionary; fields in the order of `EXPECTED_COLUMNS`
(`transNum` stands for the key containing a space and a hash, `typ` for the
reserved word `Type`). `none` is Python `None`. -/
structure Txn where
  transNum : Option String
  typ : Option String
  date : Option String
  num : Option String
  name : Option String
  memo : Option String
  account : Option String
  debit : Option String
  credit : Option String
deriving DecidableEq, Repr

/-- Python truthiness of an optional string: `None` and the empty string are
falsy. -/
def optTruthy : Option String → Bool
  | none => false
  | some s => !(s = "")

/-- Header detection (parser.py:96-111): the line must contain (in lowercase)
all of date/debit/credit/name; then the start indices of every expected
column found in the line are collected and at least 4 columns, among them
Date and one of Debit/Credit, must be present. -/
def headerCheck (line : String) : Bool :=
  let ll := pyLower line
  if ["date", "debit", "credit", "name"].all (fun c => containsSubstr ll c) then
    let temp := EXPECTED_COLUMNS.filterMap fun c =>
      (substrIdx ll (pyLower c)).map fun i => (c, i)
    decide (temp.length ≥ 4) && temp.any (fun p => p.1 = "Date") &&
      (temp.any (fun p => p.1 = "Debit") || temp.any (fun p => p.1 = "Credit"))
  else false

/-- Amount-classification rule of parser.py:138-155: one money part goes to
Debit, with two or more the last two go to Debit and Credit, each dropped
when its stripped string is empty. -/
def debitCredit (potential_amounts : List String) :
    Option String × Option String :=
  if potential_amounts.length = 1 then
    (some (stripMoney (potential_amounts.getD 0 "")), none)
  else if potential_amounts.length ≥ 2 then
    let val1_str :=
      stripMoney (potential_amounts.getD (potential_amounts.length - 2) "")
    let val2_str := stripMoney ((potential_amounts.getLast?).getD "")
    ((if val1_str = "" then none else some val1_str),
     (if val2_str = "" then none else some val2_str))
  else (none, none)

/-- Body of the per-line transaction extraction (parser.py:124-168), applied
to an already stripped non-header line; returns the appended transaction, if
any. -/
def parseDataLine (line : String) : Option Txn :=
  let parts := splitParts line
  if parts.length ≥ 3 then
    let date := dateSearch line
    let potential_amounts := parts.filter isMoney
    let dc := debitCredit potential_amounts
    if optTruthy date || optTruthy dc.1 || optTruthy dc.2 then
      let p0 := parts.getD 0 ""
      let typ :=
        if parts.length > 0 && (dateSearch p0).isNone && !isMoney p0 then
          some p0
        else none
      let name :=
        if parts.length > 1 && optTruthy typ then some (parts.getD 1 "")
        else if parts.length > 0 && !optTruthy typ then some p0
        else none
      some ⟨none, typ, date, none, name, some line, none, dc.1, dc.2⟩
    else none
  else none

/-- One iteration of the line loop of `parse_ledger_text`: skip blank lines,
recognise the header line once (and skip it), otherwise run the data-line
extraction. -/
def lineStep (headerFound : Bool) (rawLine : String) : Bool × Option Txn :=
  let line := pyStrip rawLine
  if line = "" then (headerFound, none)
  else if !headerFound && headerCheck line then (true, none)
  else (headerFound, parseDataLine line)

/-- Python `parse_ledger_text` (parser.py:30-180): strip the text, split into
lines, and accumulate the transactions the per-line step emits. -/
def parse_ledger_text (ocr_text : String) : List Txn :=
  ((pySplitLines ocr_text).foldl
    (fun (st : Bool × List Txn) rawLine =>
      let r := lineStep st.1 rawLine
      (r.1, st.2 ++ r.2.toList))
    (false, [])).2

/-! ### extract_header_footer_info (parser.py:377-464) -/

/-- The six-key metadata dictionary, as a record; `none` is Python `None`. -/
structure PageInfo where
  organization_name : Option String
  document_type : Option String
  period_from : Option String
  period_to : Option String
  page_number : Option String
  total_pages : Option String
deriving DecidableEq, Repr

/-- Python falsiness of an optional string (`not info[k]`). -/
def optFalsy (o : Option String) : Bool :=
  match o with
  | none => true
  | some s => s = ""

/-- The dictionary view of `PageInfo`, keys in insertion order of the source
literal (parser.py:403-410). -/
def pageInfoToDict (info : PageInfo) : List (String × Option String) :=
  [("organization_name", info.organization_name),
   ("document_type", info.document_type),
   ("period_from", info.period_from),
   ("period_to", info.period_to),
   ("page_number", info.page_number),
   ("total_pages", info.total_pages)]

/-- Python `info[k]` on the dictionary view. -/
def dictGet (d : List (String × Option String)) (k : String) : Option String :=
  (d.lookup k).getD none

/-- One iteration of the header scan (parser.py:421-445): period first (only
while both period fields are falsy), then, for the first three lines,
organization name / document type heuristics guarded against period lines. -/
def headerStep (info : PageInfo) (i : Nat) (rawLine : String) : PageInfo :=
  let line := pyStrip rawLine
  if line = "" then info
  else
    let info1 :=
      if optFalsy info.period_from && optFalsy info.period_to then
        match periodSearch line with
        | some (g1, g2) =>
          { info with period_from := some (pyStrip g1),
                      period_to := some (pyStrip g2) }
        | none => info
      else info
    let ll := pyLower line
    if i < 3 then
      if optFalsy info1.organization_name &&
          (containsSubstr ll "church" || containsSubstr ll "organization" ||
            pyIsUpper line) then
        if (periodSearch line).isNone then
          { info1 with organization_name := some line }
        else info1
      else if optFalsy info1.document_type &&
          (containsSubstr ll "ledger" || containsSubstr ll "journal" ||
            containsSubstr ll "statement" ||
            (pyIsUpper line &&
              (match info1.organization_name with
               | some s => !(line = s)
               | none => true))) then
        if (periodSearch line).isNone then
          { info1 with document_type := some line }
        else info1
      else info1
    else info1

/-- One iteration of the footer scan (parser.py:448-458): first non-blank
line with a page-number match sets `page_number` and, when the second group
matched non-trivially, `total_pages`. -/
def footerStep (info : PageInfo) (rawLine : String) : PageInfo :=
  let line := pyStrip rawLine
  if line = "" then info
  else if optFalsy info.page_number then
    match pageSearch line with
    | some (g1, g2) =>
      let info1 := { info with page_number := some g1 }
      match g2 with
      | some t => if !(t = "") then { info1 with total_pages := some t } else info1
      | none => info1
    | none => info
  else info

/-- Python `extract_header_footer_info` (parser.py:377-464): scan the first
`2 × window` lines for period and organization/document-type information
and the last `window` lines for page numbers, where
`window = min(5, total // 2 if total > 1 else 1)`. -/
def extract_header_footer_info (ocr_text : String) : List (String × Option String) :=
  let lines := pySplitLines ocr_text
  let n := lines.length
  let num_boundary_lines := min 5 (if n > 1 then n / 2 else 1)
  let info0 : PageInfo := ⟨none, none, none, none, none, none⟩
  let info1 := (List.range (min (num_boundary_lines * 2) n)).foldl
    (fun info i => headerStep info i (lines.getD i "")) info0
  let start := n - num_boundary_lines
  let info2 := (List.range' start (n - start)).foldl
    (fun info i => footerStep info (lines.getD i "")) info1
  pageInfoToDict info2

/-! ### extract_main_content_text (parser.py:467-512) -/

/-- Python `extract_main_content_text` (parser.py:467-512); the source
defaults both skip counts to 5, callers in this development always pass them
explicitly.  `end_index` is computed in `ℤ` exactly as Python does, so the
degenerate branches are taken for the same inputs. -/
def extract_main_content_text (ocr_text : String)
    (header_lines_to_skip footer_lines_to_skip : Nat) : String :=
  let lines := pySplitLines ocr_text
  if lines.length = 0 then ""
  else
    let start_index := header_lines_to_skip
    let end_index : Int := (lines.length : Int) - footer_lines_to_skip
    if (start_index : Int) ≥ end_index then
      if (start_index : Int) ≥ (lines.length : Int) then ""
      else if end_index ≤ 0 then ""
      else strJoin "\n" (pySlice lines start_index end_index.toNat)
    else strJoin "\n" (pySlice lines start_index end_index.toNat)

/-! ### parse_ledger_data_from_dataframe (parser.py:183-365)

A `pytesseract.image_to_data` DataFrame is modelled as its column-name list
plus typed rows.  Numeric cells are `ℚ` (the source coerces `conf` to float
and compares coordinates against `0.15`/`0.85` fractions of the content
height).  pandas raises `KeyError` on access to an absent column
(`df[c]`, `sort_values`), modelled as `Except.error`; the source checks only
the six columns of `requiredCols` before doing layout analysis, while it
accesses `conf` and `text` before that check and sorts on `page_num` after
it. -/

/-- One row of the OCR DataFrame (the Word of the specification). -/
structure OcrRow where
  page_num : ℚ
  block_num : ℚ
  par_num : ℚ
  line_num : ℚ
  left : ℚ
  top : ℚ
  width : ℚ
  height : ℚ
  conf : ℚ
  text : Option String
deriving DecidableEq, Repr

/-- The OCR DataFrame: column names plus rows.  A row field is meaningful
exactly when its column name is listed in `cols`. -/
structure OcrDataFrame where
  cols : List String
  rows : List OcrRow
deriving DecidableEq, Repr

/-- Word filter of parser.py:224-228: confidence strictly above 10, text not
NaN and not whitespace-only. -/
def keepWord (w : OcrRow) : Bool :=
  decide (10 < w.conf) && w.text.isSome && !(pyStrip (w.text.getD "") = "")

/-- The filtered DataFrame `df_filtered` (parser.py:224-230). -/
def filterConf (rows : List OcrRow) : List OcrRow := rows.filter keepWord

/-- pandas `df['top'].min()` over a non-empty frame (0 is never used: the
source reaches this computation only with at least one filtered row). -/
def minTop : List OcrRow → ℚ
  | [] => 0
  | w :: ws => ws.foldl (fun m x => min m x.top) w.top

/-- pandas `(df['top'] + df['height']).max()` over a non-empty frame. -/
def maxBottom : List OcrRow → ℚ
  | [] => 0
  | w :: ws => ws.foldl (fun m x => max m (x.top + x.height)) (w.top + w.height)

/-- Zone segmentation (parser.py:256-275): when the content height is not
positive every filtered word is body; otherwise a word is body when its top
is at or below the header zone end and its bottom at or above the footer
zone start. -/
def bodyCandidates (flt : List OcrRow) : List OcrRow :=
  let min_top := minTop flt
  let max_bottom := maxBottom flt
  let page_content_height := max_bottom - min_top
  if page_content_height ≤ 0 then flt
  else
    let header_zone_end_y := min_top + page_content_height * (15 / 100)
    let footer_zone_start_y := min_top + page_content_height * (85 / 100)
    flt.filter fun w =>
      decide (header_zone_end_y ≤ w.top) &&
        decide (w.top + w.height ≤ footer_zone_start_y)

/-- Tesseract structural grouping key (parser.py:300). -/
def lineKey (w : OcrRow) : ℚ × ℚ × ℚ := (w.block_num, w.par_num, w.line_num)

/-- Insert into a sorted list, before the first element not below `a`. -/
def insertLe {α : Type} (le : α → α → Bool) (a : α) : List α → List α
  | [] => [a]
  | b :: bs => if le a b then a :: b :: bs else b :: insertLe le a bs

/-- Stable insertion sort (models the ordering passes of
`sort_values`/sorted `groupby`; ties keep their incoming order, which the
source leaves unspecified). -/
def insSort {α : Type} (le : α → α → Bool) : List α → List α
  | [] => []
  | a :: rest => insertLe le a (insSort le rest)

/-- Lexicographic order on grouping keys (pandas iterates a sorted `groupby`
in ascending key order). -/
def keyLe (a b : ℚ × ℚ × ℚ) : Bool :=
  decide (a.1 < b.1) ||
    (decide (a.1 = b.1) &&
      (decide (a.2.1 < b.2.1) ||
        (decide (a.2.1 = b.2.1) && decide (a.2.2 ≤ b.2.2))))

/-- Line reconstruction from body words (parser.py:292-313): group body words
by `(block_num, par_num, line_num)`, order the groups by that key, order each
group by `left` and join the texts with single spaces.  This is the
CoordinateLineReconstructor of the specification. -/
def reconstruct_body_lines (rows : List OcrRow) : List String :=
  let body := bodyCandidates (filterConf rows)
  let keys := insSort keyLe (body.map lineKey).dedup
  keys.map fun k =>
    strJoin " "
      ((insSort (fun a b => decide (a.left ≤ b.left))
          (body.filter (fun w => decide (lineKey w = k)))).map
        (fun w => w.text.getD ""))

/-- The structural columns checked explicitly at parser.py:252. -/
def requiredCols : List String :=
  ["top", "height", "left", "block_num", "par_num", "line_num"]

/-- Python `parse_ledger_data_from_dataframe` (parser.py:183-365).  Column
accesses happen in source order: `conf` and `text` during filtering (before
any column check), the `requiredCols` check (refusing with an empty result),
the body segmentation, then `sort_values` touching `page_num`.  When lines
were reconstructed they are joined and fed to `parse_ledger_text`. -/
def parse_ledger_data_from_dataframe (df : OcrDataFrame) : Except String (List Txn) :=
  if !df.cols.contains "conf" then Except.error "KeyError: conf"
  else if !df.cols.contains "text" then Except.error "KeyError: text"
  else
    let df_filtered := filterConf df.rows
    if df_filtered.isEmpty then Except.ok []
    else if !(requiredCols.all (fun c => df.cols.contains c)) then Except.ok []
    else
      let body := bodyCandidates df_filtered
      if body.isEmpty then Except.ok []
      else if !df.cols.contains "page_num" then Except.error "KeyError: page_num"
      else
        let reconstructed_lines_text := reconstruct_body_lines df.rows
        if !reconstructed_lines_text.isEmpty then
          Except.ok (parse_ledger_text (strJoin "\n" reconstructed_lines_text))
        else Except.ok []

/-! ### process_page_ocr_results (parser.py:515-575) -/

/-- pandas `DataFrame.empty`: some axis has length zero. -/
def dfEmpty (df : OcrDataFrame) : Bool := df.rows.isEmpty || df.cols.isEmpty

/-- The text-only branch of the orchestrator (parser.py:558-572): strip 4
header and 2 footer lines (the hard-coded guesses) and parse the remainder
when it is non-blank. -/
def textPathTransactions (ocr_text : String) : List Txn :=
  let main_text := extract_main_content_text ocr_text 4 2
  if !(pyStrip main_text = "") then parse_ledger_text main_text else []

/-- Python `process_page_ocr_results` (parser.py:515-575): always extract the
metadata from the raw text; with a present, non-empty DataFrame take the
coordinate path (whose pandas `KeyError`s propagate), otherwise the
text-stripping path. -/
def process_page_ocr_results (ocr_text : String)
    (ocr_dataframe : Option OcrDataFrame) :
    Except String (List (String × Option String) × List Txn) :=
  let header_footer_data := extract_header_footer_info ocr_text
  match ocr_dataframe with
  | some df =>
    if !dfEmpty df then
      match parse_ledger_data_from_dataframe df with
      | Except.ok transactions => Except.ok (header_footer_data, transactions)
      | Except.error e => Except.error e
    else Except.ok (header_footer_data, textPathTransactions ocr_text)
  | none => Except.ok (header_footer_data, textPathTransactions ocr_text)

/-! ### Supporting lemmas -/

/-- A string accepted by the dot-decimals fragment contains a digit. -/
theorem matchDotDD_digit : ∀ cs : List Char, matchDotDD cs = true →
    ∃ c ∈ cs, c.isDigit = true := by
  intro cs h
  unfold matchDotDD at h
  split at h
  · rename_i a b
    simp only [Bool.and_eq_true] at h
    exact ⟨a, by simp, h.1⟩
  · exact absurd h (by simp)

/-- A string accepted by the body of the money pattern contains a digit. -/
theorem moneyBody_digit : ∀ cs : List Char, moneyBody cs = true →
    ∃ c ∈ cs, c.isDigit = true := by
  intro cs h
  unfold moneyBody at h
  simp only [Bool.or_eq_true] at h
  rcases h with h1 | h2
  · exact matchDotDD_digit cs h1
  · simp only [Bool.and_eq_true, Bool.not_eq_true'] at h2
    have hne : cs.takeWhile Char.isDigit ≠ [] := by
      simpa [List.isEmpty_iff] using h2.1
    obtain ⟨c, hc⟩ := List.exists_mem_of_ne_nil _ hne
    exact ⟨c, (List.takeWhile_sublist _).subset hc,
      List.mem_takeWhile_imp hc⟩

/-- A token accepted by the money pattern contains a digit. -/
theorem isMoney_digit : ∀ s : String, isMoney s = true →
    ∃ c ∈ s.data, c.isDigit = true := by
  intro s h
  unfold isMoney at h
  split at h
  · rename_i rest heq
    obtain ⟨c, hc, hd⟩ := moneyBody_digit rest h
    exact ⟨c, by rw [heq]; exact List.mem_cons_of_mem _ hc, hd⟩
  · exact moneyBody_digit _ h

/-- Stripping dollars and commas from a money token leaves a non-empty
string. -/
theorem stripMoney_ne_empty {s : String} (h : isMoney s = true) :
    ¬ stripMoney s = "" := by
  obtain ⟨c, hc, hd⟩ := isMoney_digit s h
  intro he
  have hnil : s.data.filter (fun c => !(c = '$' || c = ',')) = [] := by
    have := List.asString_eq.mp he
    simpa using this
  have hmem : c ∈ s.data.filter (fun c => !(c = '$' || c = ',')) := by
    refine List.mem_filter.mpr ⟨hc, ?_⟩
    have h1 : ¬ c = '$' := by rintro rfl; simp at hd
    have h2 : ¬ c = ',' := by rintro rfl; simp at hd
    simp [h1, h2]
  rw [hnil] at hmem
  exact absurd hmem (List.not_mem_nil c)

/-- Every value the stripper produces is free of dollar signs and commas. -/
theorem stripMoney_clean (s : String) :
    '$' ∉ (stripMoney s).data ∧ ',' ∉ (stripMoney s).data := by
  constructor <;>
  · intro hmem
    have hmem' : _ ∈ s.data.filter (fun c => !(c = '$' || c = ',')) := hmem
    rcases List.mem_filter.mp hmem' with ⟨_, hq⟩
    simp at hq

/-- A transaction appended by the line loop comes from the data-line
extraction applied to the stripped line. -/
theorem lineStep_snd_some {hf : Bool} {raw : String} {t : Txn}
    (h : (lineStep hf raw).2 = some t) :
    parseDataLine (pyStrip raw) = some t := by
  simp only [lineStep] at h
  split at h
  · exact absurd h (by simp)
  · split at h
    · exact absurd h (by simp)
    · exact h

/-- A line whose data extraction yields nothing appends nothing, whatever the
header state. -/
theorem lineStep_snd_none {hf : Bool} {raw : String}
    (h : parseDataLine (pyStrip raw) = none) :
    (lineStep hf raw).2 = none := by
  simp only [lineStep]
  split
  · rfl
  · split
    · rfl
    · exact h

/-- Membership in the fold of `parse_ledger_text`: any emitted transaction is
either in the accumulator or produced by some line. -/
theorem parse_fold_mem : ∀ (lines : List String) (st : Bool × List Txn) (t : Txn),
    t ∈ (lines.foldl
      (fun (st : Bool × List Txn) rawLine =>
        let r := lineStep st.1 rawLine
        (r.1, st.2 ++ r.2.toList)) st).2 →
    t ∈ st.2 ∨ ∃ l ∈ lines, parseDataLine (pyStrip l) = some t := by
  intro lines
  induction lines with
  | nil => intro st t h; exact Or.inl h
  | cons l ls ih =>
    intro st t h
    simp only [List.foldl_cons] at h
    rcases ih _ t h with h' | ⟨l', hl', hp⟩
    · rcases List.mem_append.mp h' with h'' | h''
      · exact Or.inl h''
      · refine Or.inr ⟨l, by simp, ?_⟩
        have : (lineStep st.1 l).2 = some t := by
          cases hop : (lineStep st.1 l).2 with
          | none => rw [hop] at h''; simp [Option.toList] at h''
          | some u =>
            rw [hop] at h''
            simp only [Option.toList, List.mem_singleton] at h''
            simp [h'']
        exact lineStep_snd_some this
    · exact Or.inr ⟨l', List.mem_cons_of_mem _ hl', hp⟩

/-- When no line produces a transaction, the fold of `parse_ledger_text`
leaves the accumulator unchanged. -/
theorem parse_fold_none : ∀ (lines : List String) (st : Bool × List Txn),
    (∀ l ∈ lines, parseDataLine (pyStrip l) = none) →
    (lines.foldl
      (fun (st : Bool × List Txn) rawLine =>
        let r := lineStep st.1 rawLine
        (r.1, st.2 ++ r.2.toList)) st).2 = st.2 := by
  intro lines
  induction lines with
  | nil => intro st _; rfl
  | cons l ls ih =>
    intro st hall
    simp only [List.foldl_cons]
    rw [ih _ (fun l' hl' => hall l' (List.mem_cons_of_mem _ hl'))]
    simp [lineStep_snd_none (hall l (by simp))]

/-- A line with no date match and no money part produces no transaction. -/
theorem parseDataLine_none {l : String}
    (hd : dateSearch l = none)
    (hm : (splitParts l).filter isMoney = []) :
    parseDataLine l = none := by
  simp only [parseDataLine]
  split
  · rw [hm, hd]
    simp [optTruthy, debitCredit]
  · rfl

/-- With exactly one money part the rule assigns it (stripped) to Debit and
leaves Credit unset. -/
theorem debitCredit_one {amounts : List String} (h : amounts.length = 1) :
    debitCredit amounts = (some (stripMoney (amounts.getD 0 "")), none) := by
  unfold debitCredit
  rw [if_pos h]

/-- With two or more money parts the rule assigns the stripped second-to-last
to Debit and the stripped last to Credit; both stripped values are non-empty
because the parts match the money pattern. -/
theorem debitCredit_two {amounts : List String} (h2 : 2 ≤ amounts.length)
    (hm : ∀ a ∈ amounts, isMoney a = true) :
    debitCredit amounts =
      (some (stripMoney (amounts.getD (amounts.length - 2) "")),
       some (stripMoney ((amounts.getLast?).getD ""))) := by
  have hlen1 : ¬ amounts.length = 1 := by omega
  have hmem1 : amounts.getD (amounts.length - 2) "" ∈ amounts := by
    have hlt : amounts.length - 2 < amounts.length := by omega
    rw [List.getD_eq_getElem?_getD, List.getElem?_eq_getElem hlt]
    simp [List.getElem_mem]
  have hne : amounts ≠ [] := by
    intro hnil
    rw [hnil] at h2
    simp at h2
  have hmem2 : (amounts.getLast?).getD "" ∈ amounts := by
    rw [List.getLast?_eq_getLast _ hne]
    simp [List.getLast_mem]
  have h1 := stripMoney_ne_empty (hm _ hmem1)
  have hlast := stripMoney_ne_empty (hm _ hmem2)
  unfold debitCredit
  rw [if_neg hlen1, if_pos h2]
  rw [List.getD_eq_getElem?_getD] at h1
  simp [h1, hlast, List.getD_eq_getElem?_getD]

/-- With no money part neither Debit nor Credit is assigned. -/
theorem debitCredit_zero {amounts : List String} (h : amounts.length = 0) :
    debitCredit amounts = (none, none) := by
  unfold debitCredit
  rw [if_neg (by omega), if_neg (by omega)]

/-- A line with enough parts whose acceptance gate holds emits a record whose
Debit and Credit fields are exactly the amount-classification results. -/
theorem parseDataLine_accepted {l : String}
    (hp : 3 ≤ (splitParts l).length)
    (hacc : (optTruthy (dateSearch l) ||
      optTruthy (debitCredit ((splitParts l).filter isMoney)).1 ||
      optTruthy (debitCredit ((splitParts l).filter isMoney)).2) = true) :
    ∃ t, parseDataLine l = some t ∧
      t.debit = (debitCredit ((splitParts l).filter isMoney)).1 ∧
      t.credit = (debitCredit ((splitParts l).filter isMoney)).2 := by
  simp only [parseDataLine]
  rw [if_pos hp, if_pos hacc]
  exact ⟨_, rfl, rfl, rfl⟩

/-- Every assigned Debit or Credit value is a stripped amount string. -/
theorem debitCredit_values {amounts : List String} {v : String}
    (h : (debitCredit amounts).1 = some v ∨ (debitCredit amounts).2 = some v) :
    ∃ w, v = stripMoney w := by
  unfold debitCredit at h
  rcases h with h | h
  · split at h
    · exact ⟨_, (Option.some.inj h).symm⟩
    · split at h
      · dsimp only at h
        split at h
        · exact absurd h (by simp)
        · exact ⟨_, (Option.some.inj h).symm⟩
      · exact absurd h (by simp)
  · split at h
    · exact absurd h (by simp)
    · split at h
      · dsimp only at h
        split at h
        · exact absurd h (by simp)
        · exact ⟨_, (Option.some.inj h).symm⟩
      · exact absurd h (by simp)

/-- The emitted record of a line always carries a Debit value when it carries
a Credit value. -/
theorem parseDataLine_credit_debit {l : String} {t : Txn}
    (h : parseDataLine l = some t) (hc : t.credit ≠ none) : t.debit ≠ none := by
  simp only [parseDataLine] at h
  split at h
  · split at h
    · obtain rfl := Option.some.inj h
      have hm : ∀ a ∈ (splitParts l).filter isMoney, isMoney a = true :=
        fun a ha => (List.mem_filter.mp ha).2
      by_cases hA1 : ((splitParts l).filter isMoney).length = 1
      · rw [debitCredit_one hA1]
        simp
      · by_cases hA2 : 2 ≤ ((splitParts l).filter isMoney).length
        · rw [debitCredit_two hA2 hm]
          simp
        · rw [debitCredit_zero (by omega)] at hc
          simp at hc
    · exact absurd h (by simp)
  · exact absurd h (by simp)

/-- Full behaviour of the content isolator: with fewer skips than lines it
returns exactly the middle slice rejoined, otherwise the empty string. -/
theorem extract_main_content_spec (s : String) (h f : Nat) :
    (h + f < (pySplitLines s).length →
      extract_main_content_text s h f =
        strJoin "\n" (pySlice (pySplitLines s) h ((pySplitLines s).length - f))) ∧
    ((pySplitLines s).length ≤ h + f → extract_main_content_text s h f = "") := by
  simp only [extract_main_content_text]
  constructor
  · intro hlt
    rw [if_neg (by omega)]
    rw [if_neg (by omega)]
    have htn : (((pySplitLines s).length : Int) - (f : Int)).toNat =
        (pySplitLines s).length - f := by omega
    rw [htn]
  · intro hle
    by_cases h0 : (pySplitLines s).length = 0
    · rw [if_pos h0]
    · rw [if_neg h0]
      rw [if_pos (by omega)]
      by_cases hA : ((h : Int) ≥ ((pySplitLines s).length : Int))
      · rw [if_pos hA]
      · rw [if_neg hA]
        by_cases hB : ((pySplitLines s).length : Int) - (f : Int) ≤ 0
        · rw [if_pos hB]
        · rw [if_neg hB]
          have hslice : pySlice (pySplitLines s) h
              (((pySplitLines s).length : Int) - (f : Int)).toNat = [] := by
            unfold pySlice
            apply List.drop_eq_nil_of_le
            have hlt := List.length_take
              ((((pySplitLines s).length : Int) - (f : Int)).toNat)
              (pySplitLines s)
            omega
          rw [hslice]
          rfl

/-! ### Claims -/

deriving instance DecidableEq for Except

/-- C1.  The claim states that `parse_ledger_data_from_dataframe` never
raises when an expected structural column (for instance `conf` or `page_num`)
is absent, refusing instead with zero reconstructed lines and an empty
transaction list.  The code contradicts this: its column check at
parser.py:252 covers only top/height/left/block_num/par_num/line_num, while
`page_num` is accessed by `sort_values` at parser.py:292 after that check
(and `conf` and `text` are accessed before it), so a frame lacking `conf` (or
one lacking `page_num`, with at least one body word) makes pandas raise
`KeyError`.  This theorem evaluates the embedded code on a frame that has
every column except `conf`: the computation aborts with the modelled
`KeyError` on the very first filter step instead of returning an empty
list. -/
theorem C1_missing_conf_column_raises :
    parse_ledger_data_from_dataframe
      ⟨["page_num", "block_num", "par_num", "line_num", "left", "top",
        "width", "height", "text"],
       [⟨1, 1, 1, 1, 10, 100, 40, 10, 90, some "Hello"⟩]⟩ =
      Except.error "KeyError: conf" := by
  decide

/-- C2.  The claim states that on text whose first lines contain
`Period from 01/01/2024 to January 31, 2024` the extractor returns
`period_from = "01/01/2024"` and `period_to = "January 31, 2024"`.  The code
disagrees on the first group: the lead alternation of `period_pattern`
consumes only the word `Period`, after which the lazy first group starts at
`from` and must extend to the first separator occurrence (the standalone
`to`), so the captured first span is `from 01/01/2024`.  The second group is
captured as the claim states.  This theorem evaluates the embedded extractor
on exactly that text (the repository test asserts `"01/01/2024"` here, so
the code contradicts its own test suite). -/
theorem C2_period_from_keeps_lead_word :
    dictGet (extract_header_footer_info
        "Period from 01/01/2024 to January 31, 2024") "period_from" =
      some "from 01/01/2024" ∧
    dictGet (extract_header_footer_info
        "Period from 01/01/2024 to January 31, 2024") "period_to" =
      some "January 31, 2024" := by
  constructor <;> decide

/-- C5.  On input text none of whose lines matches the date pattern anywhere
and none of whose split parts matches the money pattern,
`parse_ledger_text` returns the empty sequence: no line can set Date, Debit
or Credit, and the record-acceptance gate requires one of them. -/
theorem C5_no_tokens_no_transactions (t : String)
    (h : ∀ l ∈ pySplitLines t, dateSearch (pyStrip l) = none ∧
      ∀ p ∈ splitParts (pyStrip l), isMoney p = false) :
    parse_ledger_text t = [] := by
  unfold parse_ledger_text
  refine parse_fold_none _ _ (fun l hl => ?_)
  refine parseDataLine_none (h l hl).1 ?_
  exact List.filter_eq_nil_iff.mpr (fun p hp => by simp [(h l hl).2 p hp])

/-- Witness for C5 at a concrete two-line text with no date-like or
money-like tokens. -/
theorem C5_no_tokens_no_transactions_witness :
    parse_ledger_text "Just some random text\nNo parsable data here" = [] :=
  C5_no_tokens_no_transactions _ (by decide)

/-- C9.  Invariant of every record emitted by `parse_ledger_text`: a non-null
Credit implies a non-null Debit.  Credit is only assigned in the
two-or-more-amounts branch, where Debit simultaneously receives the stripped
second-to-last amount, which is non-empty for every token accepted by the
money pattern. -/
theorem C9_credit_implies_debit (text : String) (t : Txn)
    (ht : t ∈ parse_ledger_text text) (hc : t.credit ≠ none) :
    t.debit ≠ none := by
  unfold parse_ledger_text at ht
  rcases parse_fold_mem _ _ _ ht with h0 | ⟨l, _, hp⟩
  · simp at h0
  · exact parseDataLine_credit_debit hp hc

/-- Witness for C9 at a concrete line that produces a record with both
amounts set. -/
theorem C9_credit_implies_debit_witness :
    ∃ t : Txn, t ∈ parse_ledger_text "a  b  1.00  2.00" ∧ t.debit ≠ none := by
  refine ⟨⟨none, some "a", none, none, some "b", some "a  b  1.00  2.00",
    none, some "1.00", some "2.00"⟩, by decide, ?_⟩
  exact C9_credit_implies_debit "a  b  1.00  2.00" _ (by decide) (by decide)

/-- C6.  For every input string the metadata extractor terminates (it is a
total function) and returns a dictionary whose keys are exactly the six
metadata keys in insertion order, each value being an optional string
(Python `None` is `Option.none`). -/
theorem C6_metadata_always_complete (s : String) :
    (extract_header_footer_info s).map Prod.fst =
      ["organization_name", "document_type", "period_from", "period_to",
       "page_number", "total_pages"] := by
  rfl

/-- C3.  For every input string, with `n` the number of lines the isolator
splits the text into: when `h + f < n` the result is exactly lines `[h, n-f)`
rejoined with newline separators, and when `h + f ≥ n` the result is the
empty string; the function is total, hence never raises. -/
theorem C3_content_isolator_roundtrip (s : String) (h f : Nat) :
    (h + f < (pySplitLines s).length →
      extract_main_content_text s h f =
        strJoin "\n" (pySlice (pySplitLines s) h ((pySplitLines s).length - f))) ∧
    ((pySplitLines s).length ≤ h + f → extract_main_content_text s h f = "") :=
  extract_main_content_spec s h f

/-- Witness for C3: a four-line document with one header and one footer line
stripped keeps the middle two lines; a two-line document with the same skips
is emptied. -/
theorem C3_content_isolator_roundtrip_witness :
    extract_main_content_text "a\nb\nc\nd" 1 1 = "b\nc" ∧
    extract_main_content_text "a\nb" 1 1 = "" := by
  constructor
  · have hthm := (C3_content_isolator_roundtrip "a\nb\nc\nd" 1 1).1 (by decide)
    rw [hthm]
    decide
  · exact (C3_content_isolator_roundtrip "a\nb" 1 1).2 (by decide)

/-- C10.  Without a word DataFrame (absent or empty), the orchestrator uses
the hard-coded guesses of 4 header and 2 footer lines, so any text whose
stripped form splits into at most 6 lines yields an empty transaction list
regardless of content (the metadata is still extracted). -/
theorem C10_short_text_no_transactions (text : String) (d : Option OcrDataFrame)
    (hd : d = none ∨ ∃ df, d = some df ∧ dfEmpty df = true)
    (hn : (pySplitLines text).length ≤ 6) :
    process_page_ocr_results text d =
      Except.ok (extract_header_footer_info text, []) := by
  have hmain : extract_main_content_text text 4 2 = "" :=
    (extract_main_content_spec text 4 2).2 (by omega)
  have hpath : textPathTransactions text = [] := by
    unfold textPathTransactions
    rw [hmain]
    rfl
  rcases hd with rfl | ⟨df, rfl, hemp⟩
  · simp [process_page_ocr_results, hpath]
  · simp [process_page_ocr_results, hemp, hpath]

/-- Witness for C10: a six-line document full of transaction-looking content
still yields no transactions on the text path. -/
theorem C10_short_text_no_transactions_witness :
    process_page_ocr_results
      "l1\nCheck  Acme  01/05/2022  150.00\nl3\nl4\nl5\nl6" none =
      Except.ok (extract_header_footer_info
        "l1\nCheck  Acme  01/05/2022  150.00\nl3\nl4\nl5\nl6", []) :=
  C10_short_text_no_transactions _ none (Or.inl rfl) (by decide)

/-- C4.  For every line that reaches the amount-classification step (at least
three parts): with exactly one money part the record carries that part,
stripped, as Debit and no Credit; with two or more money parts the record
carries the stripped second-to-last as Debit and the stripped last as
Credit; and every stored amount value contains neither a dollar sign nor a
comma. -/
theorem C4_amount_assignment (l : String)
    (hp : 3 ≤ (splitParts l).length) :
    (((splitParts l).filter isMoney).length = 1 →
      ∃ t, parseDataLine l = some t ∧
        t.debit = some (stripMoney (((splitParts l).filter isMoney).getD 0 "")) ∧
        t.credit = none) ∧
    (2 ≤ ((splitParts l).filter isMoney).length →
      ∃ t, parseDataLine l = some t ∧
        t.debit = some (stripMoney (((splitParts l).filter isMoney).getD
          (((splitParts l).filter isMoney).length - 2) "")) ∧
        t.credit = some (stripMoney ((((splitParts l).filter isMoney).getLast?).getD ""))) ∧
    (∀ t, parseDataLine l = some t → ∀ v,
      t.debit = some v ∨ t.credit = some v →
      '$' ∉ v.data ∧ ',' ∉ v.data) := by
  have hm : ∀ a ∈ (splitParts l).filter isMoney, isMoney a = true :=
    fun a ha => (List.mem_filter.mp ha).2
  refine ⟨?_, ?_, ?_⟩
  · intro h1
    have hmem : ((splitParts l).filter isMoney).getD 0 "" ∈
        (splitParts l).filter isMoney := by
      have hlt : 0 < ((splitParts l).filter isMoney).length := by omega
      rw [List.getD_eq_getElem?_getD, List.getElem?_eq_getElem hlt]
      simp [List.getElem_mem]
    have hne := stripMoney_ne_empty (hm _ hmem)
    have hacc : (optTruthy (dateSearch l) ||
        optTruthy (debitCredit ((splitParts l).filter isMoney)).1 ||
        optTruthy (debitCredit ((splitParts l).filter isMoney)).2) = true := by
      rw [debitCredit_one h1]
      rw [List.getD_eq_getElem?_getD] at hne
      simp [optTruthy, hne]
    obtain ⟨t, ht, hd, hc⟩ := parseDataLine_accepted hp hacc
    refine ⟨t, ht, ?_, ?_⟩
    · rw [hd, debitCredit_one h1]
    · rw [hc, debitCredit_one h1]
  · intro h2
    have hmem : ((splitParts l).filter isMoney).getD
        (((splitParts l).filter isMoney).length - 2) "" ∈
        (splitParts l).filter isMoney := by
      have hlt : ((splitParts l).filter isMoney).length - 2 <
          ((splitParts l).filter isMoney).length := by omega
      rw [List.getD_eq_getElem?_getD, List.getElem?_eq_getElem hlt]
      simp [List.getElem_mem]
    have hne := stripMoney_ne_empty (hm _ hmem)
    have hacc : (optTruthy (dateSearch l) ||
        optTruthy (debitCredit ((splitParts l).filter isMoney)).1 ||
        optTruthy (debitCredit ((splitParts l).filter isMoney)).2) = true := by
      rw [debitCredit_two h2 hm]
      rw [List.getD_eq_getElem?_getD] at hne
      simp [optTruthy, hne]
    obtain ⟨t, ht, hd, hc⟩ := parseDataLine_accepted hp hacc
    refine ⟨t, ht, ?_, ?_⟩
    · rw [hd, debitCredit_two h2 hm]
    · rw [hc, debitCredit_two h2 hm]
  · intro t ht v hv
    simp only [parseDataLine] at ht
    rw [if_pos hp] at ht
    by_cases hacc : (optTruthy (dateSearch l) ||
        optTruthy (debitCredit ((splitParts l).filter isMoney)).1 ||
        optTruthy (debitCredit ((splitParts l).filter isMoney)).2) = true
    · rw [if_pos hacc] at ht
      obtain rfl := Option.some.inj ht
      have hdc : (debitCredit ((splitParts l).filter isMoney)).1 = some v ∨
          (debitCredit ((splitParts l).filter isMoney)).2 = some v := hv
      obtain ⟨w, rfl⟩ := debitCredit_values hdc
      exact stripMoney_clean w
    · rw [if_neg hacc] at ht
      exact absurd ht (by simp)

/-- Witness for C4: a line with one money token yields Debit only; a line
with a dollar-and-comma amount and a second amount yields both, stripped. -/
theorem C4_amount_assignment_witness :
    (∃ t, parseDataLine "Check  Acme Corp  01/05/2022  150.00" = some t ∧
      t.debit = some "150.00" ∧ t.credit = none) ∧
    (∃ t, parseDataLine "a  b  $1,234.56  200.00" = some t ∧
      t.debit = some "1234.56" ∧ t.credit = some "200.00") := by
  constructor
  · obtain ⟨t, ht, hd, hc⟩ :=
      (C4_amount_assignment "Check  Acme Corp  01/05/2022  150.00"
        (by decide)).1 (by decide)
    refine ⟨t, ht, ?_, hc⟩
    rw [hd]
    decide
  · obtain ⟨t, ht, hd, hc⟩ :=
      (C4_amount_assignment "a  b  $1,234.56  200.00"
        (by decide)).2.1 (by decide)
    refine ⟨t, ht, ?_, ?_⟩
    · rw [hd]
      decide
    · rw [hc]
      decide

/-- C8.  With a present, non-empty word DataFrame the orchestrator always
takes the coordinate path: its result is exactly the coordinate parser's
result paired with the metadata extracted from the raw text (so the
text-stripping path contributes nothing), and whenever the coordinate path
reconstructs zero body lines and completes, the returned transaction list is
empty. -/
theorem C8_coordinate_path (text : String) (df : OcrDataFrame)
    (hne : dfEmpty df = false) :
    (process_page_ocr_results text (some df) =
      (parse_ledger_data_from_dataframe df).map
        (fun ts => (extract_header_footer_info text, ts))) ∧
    (∀ ts, reconstruct_body_lines df.rows = [] →
      parse_ledger_data_from_dataframe df = Except.ok ts → ts = []) := by
  constructor
  · simp only [process_page_ocr_results, hne]
    cases hp : parse_ledger_data_from_dataframe df with
    | ok ts => simp [Except.map]
    | error e => simp [Except.map]
  · intro ts hrec hok
    simp only [parse_ledger_data_from_dataframe] at hok
    split at hok
    · exact absurd hok (by simp)
    · split at hok
      · exact absurd hok (by simp)
      · split at hok
        · exact (Except.ok.inj hok).symm
        · split at hok
          · exact (Except.ok.inj hok).symm
          · split at hok
            · exact (Except.ok.inj hok).symm
            · split at hok
              · exact absurd hok (by simp)
              · rw [hrec] at hok
                simp only [List.isEmpty_nil, Bool.not_true] at hok
                rw [if_neg (by simp)] at hok
                exact (Except.ok.inj hok).symm

/-- Witness for C8: a one-word DataFrame whose only word is filtered out for
low confidence takes the coordinate path and returns the metadata together
with an empty transaction list. -/
theorem C8_coordinate_path_witness :
    process_page_ocr_results ""
      (some ⟨["conf", "text", "top", "height", "left", "block_num",
              "par_num", "line_num", "page_num"],
             [⟨1, 1, 1, 1, 0, 0, 0, 0, 5, some "x"⟩]⟩) =
      Except.ok (extract_header_footer_info "", []) := by
  have h := (C8_coordinate_path ""
    ⟨["conf", "text", "top", "height", "left", "block_num",
      "par_num", "line_num", "page_num"],
     [⟨1, 1, 1, 1, 0, 0, 0, 0, 5, some "x"⟩]⟩ (by decide)).1
  rw [h]
  decide

/-- C7.  For a word set spanning a positive vertical content range with two
words strictly inside the header band, two words in the body band sharing one
structural line, and one word in the footer band, the reconstructor produces
exactly one line: the two body words' texts joined left-to-right; header and
footer words are excluded.  `m` is the minimum top and `ch` the content
height computed from the words. -/
theorem C7_body_band_reconstruction (h1 h2 b1 b2 f1 : OcrRow) (m ch : ℚ)
    (hm : minTop [h1, h2, b1, b2, f1] = m)
    (hch : maxBottom [h1, h2, b1, b2, f1] - m = ch)
    (hk : ∀ w ∈ [h1, h2, b1, b2, f1], keepWord w = true)
    (hpos : 0 < ch)
    (hh1 : h1.top < m + ch * (15 / 100))
    (hh2 : h2.top < m + ch * (15 / 100))
    (hb1top : m + ch * (15 / 100) ≤ b1.top)
    (hb1bot : b1.top + b1.height ≤ m + ch * (85 / 100))
    (hb2top : m + ch * (15 / 100) ≤ b2.top)
    (hb2bot : b2.top + b2.height ≤ m + ch * (85 / 100))
    (hf1 : m + ch * (85 / 100) < f1.top + f1.height)
    (hkey : lineKey b1 = lineKey b2)
    (hleft : b1.left ≤ b2.left) :
    reconstruct_body_lines [h1, h2, b1, b2, f1] =
      [(b1.text.getD "") ++ " " ++ (b2.text.getD "")] := by
  have hfilter : filterConf [h1, h2, b1, b2, f1] = [h1, h2, b1, b2, f1] := by
    unfold filterConf
    exact List.filter_eq_self.mpr hk
  have hbody : bodyCandidates [h1, h2, b1, b2, f1] = [b1, b2] := by
    simp only [bodyCandidates]
    rw [hm, hch]
    rw [if_neg (not_le.mpr hpos)]
    simp [not_le.mpr hh1, not_le.mpr hh2, not_le.mpr hf1,
      hb1top, hb1bot, hb2top, hb2bot]
  simp only [reconstruct_body_lines]
  rw [hfilter, hbody]
  simp only [List.map_cons, List.map_nil]
  rw [hkey]
  rw [List.dedup_cons_of_mem (by simp)]
  have hded : List.dedup [lineKey b2] = [lineKey b2] := by
    simp [List.dedup_cons_of_not_mem]
  rw [hded]
  simp only [insSort, insertLe, List.map_cons, List.map_nil]
  have hfb : List.filter (fun w => decide (lineKey w = lineKey b2)) [b1, b2] =
      [b1, b2] := by
    simp [List.filter_cons, hkey]
  rw [hfb]
  simp only [insSort, insertLe]
  rw [if_pos (by simp [hleft])]
  simp [strJoin]

/-- Witness for C7 on five concrete words: header words at tops 0 and 20,
body words at top 400 on one structural line, footer word reaching the page
bottom; only the body line `Hello World` is reconstructed. -/
theorem C7_body_band_reconstruction_witness :
    reconstruct_body_lines
      [⟨1, 1, 1, 1, 0, 0, 10, 10, 90, some "H1"⟩,
       ⟨1, 1, 1, 1, 20, 20, 10, 10, 90, some "H2"⟩,
       ⟨1, 2, 1, 1, 0, 400, 10, 10, 90, some "Hello"⟩,
       ⟨1, 2, 1, 1, 50, 400, 10, 10, 90, some "World"⟩,
       ⟨1, 3, 1, 1, 0, 990, 10, 10, 90, some "F1"⟩] = ["Hello World"] := by
  have h := C7_body_band_reconstruction
    ⟨1, 1, 1, 1, 0, 0, 10, 10, 90, some "H1"⟩
    ⟨1, 1, 1, 1, 20, 20, 10, 10, 90, some "H2"⟩
    ⟨1, 2, 1, 1, 0, 400, 10, 10, 90, some "Hello"⟩
    ⟨1, 2, 1, 1, 50, 400, 10, 10, 90, some "World"⟩
    ⟨1, 3, 1, 1, 0, 990, 10, 10, 90, some "F1"⟩
    0 1000
    (by decide)
    (by norm_num [maxBottom, List.foldl, max_def])
    (by decide)
    (by norm_num)
    (by norm_num)
    (by norm_num)
    (by norm_num)
    (by norm_num)
    (by norm_num)
    (by norm_num)
    (by norm_num)
    (by decide)
    (by decide)
  rw [h]
  decide
